import Mathlib

/-!
Verification development for the DB-analyst agent repository
(`app/db_analyst`).  The Python source is shallowly embedded: pure
functions become Lean functions, the language-model and database
collaborators become explicit functional parameters, and the LangGraph
streaming loops become explicit folds over lists of updates.

Source files embedded here:
  * `app/db_analyst/tools.py`   — `execute_sql` (validation + execution)
  * `app/db_analyst/nodes.py`   — `planner_node`, `execution_node`,
    `synthesizer_node`
  * `app/db_analyst/agent.py`   — `analyze_streaming` (deduplication)
  * `app/db_analyst/config.py`  — `MAX_RETRIES_PER_STEP`
-/

namespace DBAnalyst

/-! ## Basic data: SQL values, rows, tool output (`tools.py`, `SQLToolOutput`) -/

/-- A scalar value in a result row (SQLite values restricted to the shapes
the embedding needs: NULL, integers, text). -/
inductive SQLValue where
  | nullV
  | intV (n : Int)
  | strV (s : String)
deriving Repr, DecidableEq

/-- One result row: a mapping from column name to value, in column order
(Python: a `dict` produced by `df.to_dict(orient="records")`). -/
abbrev Row := List (String × SQLValue)

/-- An ordered sequence of result rows. -/
abbrev Rows := List Row

/-- Embedding of the Pydantic model `SQLToolOutput` from `tools.py`:
`success : bool`, `data : Optional[List[Dict[str, Any]]]`,
`error : Optional[str]`. -/
structure SQLToolOutput where
  success : Bool
  data : Option Rows
  error : Option String
deriving Repr, DecidableEq

/-! ## The keyword security filter (`tools.py` line 135)

Python: `pattern = r"\b(drop|delete|update|insert|alter|create|truncate|replace)\b"`
checked with `re.search(pattern, sql_query, flags=re.IGNORECASE)`.

`\b` is a word boundary: a position between a word character
(`[A-Za-z0-9_]` for the ASCII inputs in scope here) and a non-word
character or the string edge.  `re.IGNORECASE` lower-cases the text
character before comparing with the (lower-case) pattern character. -/

/-- A regex word character (`\w`), restricted to ASCII as all queries in
scope are ASCII. -/
def isWordChar (c : Char) : Bool := c.isAlphanum || c == '_'

/-- The blocked keywords of the regex alternation, as character lists. -/
def keywordLists : List (List Char) :=
  [['d','r','o','p'], ['d','e','l','e','t','e'], ['u','p','d','a','t','e'],
   ['i','n','s','e','r','t'], ['a','l','t','e','r'], ['c','r','e','a','t','e'],
   ['t','r','u','n','c','a','t','e'], ['r','e','p','l','a','c','e']]

/-- `startsWithKw kw s` holds when `s` begins with the keyword `kw`
case-insensitively and the keyword is followed by a word boundary
(end of string or a non-word character) — the trailing `\b`. -/
def startsWithKw : List Char → List Char → Bool
  | [], [] => true
  | [], c :: _ => !isWordChar c
  | _ :: _, [] => false
  | k :: ks, c :: cs => (k == c.toLower) && startsWithKw ks cs

/-- The leading `\b`: true when the previous character (if any) is not a
word character. -/
def boundaryOk : Option Char → Bool
  | none => true
  | some c => !isWordChar c

/-- Scan `s` for an occurrence of `kw` preceded by a word boundary
(`prev` is the character just before the current position). -/
def kwSearchAux (kw : List Char) : Option Char → List Char → Bool
  | _, [] => false
  | prev, c :: cs =>
      (boundaryOk prev && startsWithKw kw (c :: cs)) || kwSearchAux kw (some c) cs

/-- `re.search(r"\b kw \b", s, IGNORECASE)` for a single keyword. -/
def kwSearch (kw : List Char) (s : List Char) : Bool := kwSearchAux kw none s

/-- The whole security filter of `tools.py` line 136: does the raw query
text contain any blocked keyword as a case-insensitive whole word? -/
def containsBlocked (sql_query : String) : Bool :=
  keywordLists.any (fun kw => kwSearch kw sql_query.toList)

/-! ## Model of `sqlparse` (third-party dependency used at `tools.py` 142–143)

`sqlparse.parse` never raises on malformed SQL; it splits the input into
statements at semicolons (the semicolon stays with the preceding
statement; an empty input yields no statements).  `Statement.get_type()`
skips leading whitespace and returns the upper-cased first keyword when
it is a DML/DDL keyword, and `'UNKNOWN'` otherwise.  The model below
covers exactly this behaviour for the statement shapes reachable here
(comment-skipping is not modelled: no claim involves SQL comments in
statement-leading position). -/

/-- Split a character stream into statements at `;` (the `;` is kept at
the end of its statement; a trailing run with no characters yields no
statement, so the empty input parses to the empty list). -/
def splitStmtsAux (acc : List Char) : List Char → List String
  | [] => if acc.isEmpty then [] else [String.mk acc.reverse]
  | c :: cs =>
      if c == ';' then String.mk (acc.reverse ++ [';']) :: splitStmtsAux [] cs
      else splitStmtsAux (c :: acc) cs

/-- Model of `sqlparse.parse`: the list of statements of the input. -/
def sqlparse_parse (s : String) : List String := splitStmtsAux [] s.toList

/-- Skip leading whitespace characters. -/
def skipWs : List Char → List Char
  | [] => []
  | c :: cs => if c.isWhitespace then skipWs cs else c :: cs

/-- The maximal leading run of word characters. -/
def takeWord : List Char → List Char
  | [] => []
  | c :: cs => if isWordChar c then c :: takeWord cs else []

/-- The DML/DDL statement-type keywords `sqlparse` recognises (subset
relevant to SQLite inputs). -/
def sqlTypeKeywords : List String :=
  ["SELECT", "INSERT", "UPDATE", "DELETE", "MERGE",
   "CREATE", "DROP", "ALTER", "TRUNCATE", "REPLACE"]

/-- Model of `Statement.get_type()`: upper-case the first word of the
statement; return it when it is a recognised DML/DDL keyword and
`"UNKNOWN"` otherwise (in particular for whitespace-only statements and
for statements such as `PRAGMA ...`). -/
def get_type (stmt : String) : String :=
  let w := String.mk ((takeWord (skipWs stmt.toList)).map Char.toUpper)
  if w ∈ sqlTypeKeywords then w else "UNKNOWN"

/-! ## The validation phase of `execute_sql` (`tools.py` lines 131–150) -/

/-- Error message of the emptiness check (`tools.py` line 133). -/
def emptyMsg : String := "Hata: SQL sorgusu boş."

/-- Error message of the security check (`tools.py` line 137). -/
def securityMsg : String :=
  "Güvenlik ihlali. Sadece SELECT sorgularına izin verilir."

/-- Error message of the statement-type check (`tools.py` line 144),
parameterised by the detected type. -/
def typeMsg (t : String) : String :=
  "Hata: Sadece SELECT sorgularına izin verilir, \x27" ++ t ++
    "\x27 tespit edildi."

/-- Error message of the parse-failure `except` branch (`tools.py` line
148), parameterised by the exception text. -/
def parseErrMsg (e : String) : String :=
  "Hata: SQL ayrıştırılamadı - " ++ e

/-- The validation phase of `execute_sql` (`tools.py` lines 131–150), in
source order: the emptiness check (`if not sql_query`, true exactly for
the empty string), the keyword security filter, then
`sqlparse.parse` and the `parsed[0].get_type() != 'SELECT'` check.
When `parsed` is empty the f-string building the error message evaluates
`parsed[0]` and the resulting `IndexError` is caught by the `except`
branch, producing the parse-failure message. -/
def validate_sql (sql_query : String) : Except String Unit :=
  if sql_query = "" then .error emptyMsg
  else if containsBlocked sql_query then .error securityMsg
  else
    match sqlparse_parse sql_query with
    | [] => .error (parseErrMsg "list index out of range")
    | st :: _ => if get_type st ≠ "SELECT" then .error (typeMsg (get_type st)) else .ok ()

/-- `execute_sql` (`tools.py` lines 123–163).  The database collaborator
(`pandas.read_sql_query` over the SQLite connection) is the parameter
`db`: `.ok rows` models a successful query, `.error e` models a raised
exception whose message is `e`.  Validation failures return the
rejection; execution failures are caught and returned as
`SQLToolOutput(success=False, error=str(e))`. -/
def execute_sql (db : String → Except String Rows) (sql_query : String) :
    SQLToolOutput :=
  match validate_sql sql_query with
  | .error e => ⟨false, none, some e⟩
  | .ok _ =>
      match db sql_query with
      | .ok rows => ⟨true, some rows, none⟩
      | .error e => ⟨false, none, some e⟩

/-- Control reaches the `# --- Execute Query ---` block of `execute_sql`
(and hence a database connection is opened) exactly when validation
returned `Ok`. -/
def dbInvoked (sql_query : String) : Bool :=
  match validate_sql sql_query with
  | .ok _ => true
  | .error _ => false

/-! ## `planner_node` (`nodes.py` lines 21–71)

The language-model call together with the JSON extraction performed on
its raw text (the fenced-block regex, the brace-search fallback,
`json.loads`, and `plan_data.get("plan", [])` — all third-party `re` /
`json` machinery) is modelled as a single oracle
`response : Except String (List String)`: `.error e` stands for any
exception raised along that pipeline (model error, no JSON object found,
malformed JSON), `.ok plan` for a successfully parsed `plan` array.
The node's own control flow is embedded exactly: an empty parsed plan
raises `ValueError`, every exception is caught by the `except` branch,
and the fallback single-step plan is returned; a non-empty parsed plan
is returned unchanged (no length check is performed). -/

/-- The fallback plan built in the `except` branch (`nodes.py` line 69). -/
def fallback_plan (user_query : String) : List String :=
  ["Kullanıcının sorusunu yanıtlamak için doğrudan bir SQL sorgusu oluştur: \x27"
    ++ user_query ++ "\x27"]

/-- `planner_node`: return the parsed plan, falling back to the
single-step plan on any failure or on an empty plan. -/
def planner_node (response : Except String (List String))
    (user_query : String) : List String :=
  match response with
  | .error _ => fallback_plan user_query
  | .ok plan => if plan.isEmpty then fallback_plan user_query else plan

/-! ## `synthesizer_node` (`nodes.py` lines 150–181) -/

/-- One entry of `executed_steps`: the step description and its result
rows (`nodes.py` line 126). -/
structure StepRecord where
  description : String
  data : Rows
deriving Repr, DecidableEq

/-- The fixed apology string returned when no step completed
(`nodes.py` line 160). -/
def apologyMsg : String :=
  "Maalesef sorgunuzla ilgili veri toplanamadı. Lütfen sorunuzu farklı bir şekilde ifade etmeyi deneyin veya backend loglarını kontrol edin."

/-- JSON rendering of a scalar value (string escaping inside values is
not modelled; no claim depends on it). -/
def sqlValueJson : SQLValue → String
  | .nullV => "null"
  | .intV n => toString n
  | .strV s => "\"" ++ s ++ "\""

/-- JSON rendering of one row. -/
def rowJson (r : Row) : String :=
  "\x7b" ++ String.intercalate ", "
    (r.map (fun p => "\"" ++ p.1 ++ "\": " ++ sqlValueJson p.2)) ++ "\x7d"

/-- JSON rendering of a row sequence. -/
def rowsJson (rs : Rows) : String :=
  "[" ++ String.intercalate ", " (rs.map rowJson) ++ "]"

/-- The `json.dumps` of `nodes.py` lines 164–167 (the `indent=2`
pretty-printing is not modelled; no claim depends on layout). -/
def formatted_results (executed_steps : List (String × StepRecord)) : String :=
  "[" ++ String.intercalate ", " (executed_steps.map (fun p =>
    "\x7b\"step_description\": \"" ++ p.2.description ++ "\", \"data\": "
      ++ rowsJson p.2.data ++ "\x7d")) ++ "]"

/-- `SYNTHESIZER_PROMPT_TEMPLATE.format(...)` from `prompts.py`. -/
def synthesizerPrompt (user_query formatted : String) : String :=
  "\nYou are an expert data analyst. The following data has been collected from a database to answer a user\x27s question.\n\nUSER\x27S ORIGINAL QUESTION: \"" ++ user_query ++ "\"\n\nCOLLECTED DATA (JSON):\n---\n" ++ formatted ++ "\n---\n\nTASK: Using the data above, synthesize a comprehensive and clear final answer that directly addresses the user\x27s original question.\nProvide the answer in a natural, easy-to-understand language.\n"

/-- `synthesizer_node`: if `executed_steps` is empty return the apology
without any model call, otherwise send one prompt to the model.  The
language model is the parameter `llm`; the second component of the
result counts how many times it was invoked (0 or 1): instrumentation
for the call-count property, not part of the source's return value. -/
def synthesizer_node (llm : String → String) (user_query : String)
    (executed_steps : List (String × StepRecord)) : String × Nat :=
  if executed_steps.isEmpty then (apologyMsg, 0)
  else (llm (synthesizerPrompt user_query (formatted_results executed_steps)), 1)

/-! ## `execution_node` (`nodes.py` lines 74–148)

The worker sub-graph invocation `worker_graph.stream(...)` is modelled
as an oracle `worker : Nat → Nat → AttemptStream` giving, for each
(step index, attempt index), the sequence of sub-graph updates that the
`for sub_update in ...` loop observes, plus an optional exception
raised after those updates (interrupting the loop and caught by the
`except` branch at line 136). -/

/-- `config.MAX_RETRIES_PER_STEP` (`config.py` line 27). -/
def MAX_RETRIES_PER_STEP : Nat := 3

/-- A streamed log entry / progress event: a `type`, an optional step
index, and a string content (`nodes.py` `logs.append(...)`). -/
structure LogEntry where
  type : String
  step : Option Nat
  content : String
deriving Repr, DecidableEq

/-- One update observed while streaming the worker sub-graph:
an `"agent"` update whose last message carries a tool call (with its
`sql_query` argument), an `"agent"` update without tool calls, or a
`"tools"` update carrying the parsed tool output. -/
inductive SubUpdate where
  | agentCall (sql : String)
  | agentNoCall
  | toolMsg (result : SQLToolOutput)
deriving Repr, DecidableEq

/-- What one attempt's `worker_graph.stream` iteration yields: the
updates observed, and an optional exception raised after them. -/
structure AttemptStream where
  updates : List SubUpdate
  exn : Option String
deriving Repr, DecidableEq

/-- The mutable state threaded through `execution_node`'s loops:
`executed_steps`, `accumulated_data` (Python dicts, modelled as ordered
key–value lists), `logs`, and the per-step locals `step_success` and
`step_error_history`. -/
structure ExecState where
  executedSteps : List (String × StepRecord)
  accumulatedData : List (String × Rows)
  logs : List LogEntry
  stepSuccess : Bool
  errorHistory : List String
deriving Repr, DecidableEq

/-- Python dict assignment `m[k] = v` on an ordered key–value list. -/
def upsert {α : Type} (m : List (String × α)) (k : String) (v : α) :
    List (String × α) :=
  if m.any (fun p => p.1 == k) then
    m.map (fun p => if p.1 == k then (k, v) else p)
  else m ++ [(k, v)]

/-- The body of the `for sub_update in worker_graph.stream(...)` loop
(`nodes.py` lines 112–131) for step index `i` with description `step`. -/
def processUpdate (i : Nat) (step : String) (st : ExecState) :
    SubUpdate → ExecState
  | .agentCall sql =>
      { st with logs := st.logs ++ [⟨"sql_query", some i, sql⟩] }
  | .agentNoCall => st
  | .toolMsg r =>
      if r.success then
        let data := r.data.getD []
        let key := "step_" ++ toString (i + 1)
        { st with
          logs := st.logs ++ [⟨"tool_result", some i,
            "Success, " ++ toString data.length ++ " rows found."⟩],
          stepSuccess := true,
          executedSteps := upsert st.executedSteps key ⟨step, data⟩,
          accumulatedData := upsert st.accumulatedData (key ++ "_result") data }
      else
        let err := r.error.getD "Unknown tool error."
        { st with logs := st.logs ++ [⟨"tool_error", some i, err⟩],
                  errorHistory := st.errorHistory ++ [err] }

/-- The `for attempt in range(config.MAX_RETRIES_PER_STEP)` loop
(`nodes.py` lines 91–140).  `fuel` is the number of remaining loop
iterations and `attempt` the current attempt index; the loop ends early
(`break`) when an attempt raised no exception and `step_success` holds.
The second component of the result counts the loop iterations actually
executed (the number of attempts made). -/
def attemptLoop (worker : Nat → Nat → AttemptStream) (i : Nat) (step : String) :
    Nat → Nat → ExecState → ExecState × Nat
  | 0, _, st => (st, 0)
  | fuel + 1, attempt, st =>
      let a := worker i attempt
      let st1 := a.updates.foldl (processUpdate i step) st
      match a.exn with
      | none =>
          if st1.stepSuccess then (st1, 1)
          else
            let r := attemptLoop worker i step fuel (attempt + 1) st1
            (r.1, r.2 + 1)
      | some e =>
          let msg := "Critical error during step execution: " ++ e
          let st2 := { st1 with
            logs := st1.logs ++ [⟨"error", some i, msg⟩],
            errorHistory := st1.errorHistory ++ [msg] }
          let r := attemptLoop worker i step fuel (attempt + 1) st2
          (r.1, r.2 + 1)

/-- Entry into one plan step (`nodes.py` lines 87–90): emit
`step_start`, reset the per-step locals `step_success` and
`step_error_history`. -/
def stepEntry (st : ExecState) (i : Nat) (step : String) : ExecState :=
  { st with
    stepSuccess := false,
    errorHistory := [],
    logs := st.logs ++ [⟨"step_start", some i, step⟩] }

/-- The content of the step-exhaustion error event (`nodes.py` line 144). -/
def stepFailedMsg (i : Nat) : String :=
  "Step " ++ toString (i + 1) ++ " failed. Analysis stopped."

/-- The `for i, step in enumerate(plan)` loop (`nodes.py` lines 85–145):
run each step's attempt loop; when a step ends without success, emit the
step-failure error event (which carries no step index field) and
`break` out of the plan loop. -/
def execLoop (worker : Nat → Nat → AttemptStream) :
    List String → Nat → ExecState → ExecState
  | [], _, st => st
  | step :: rest, i, st =>
      let st2 := (attemptLoop worker i step MAX_RETRIES_PER_STEP 0
        (stepEntry st i step)).1
      if st2.stepSuccess then execLoop worker rest (i + 1) st2
      else { st2 with logs := st2.logs ++ [⟨"error", none, stepFailedMsg i⟩] }

/-- The initial state of `execution_node` (`nodes.py` lines 81–83). -/
def initExecState : ExecState := ⟨[], [], [], false, []⟩

/-- `execution_node` (`nodes.py` lines 74–148): run the plan loop from
the empty state, then append the final `info` event. -/
def execution_node (worker : Nat → Nat → AttemptStream)
    (plan : List String) : ExecState :=
  let fin := execLoop worker plan 0 initExecState
  { fin with logs := fin.logs ++
      [⟨"info", none, "Synthesizing final results..."⟩] }

/-! ## `analyze_streaming` (`agent.py` lines 77–151)

The main-graph stream is modelled as a list of node updates; the
generator's `yield`s become the returned event list.  The deduplication
tracker `sent_logs_tracker` (a Python set of tuples of differing
arities, hence never colliding across families) is modelled as a list
of `EventKey`s. -/

/-- One update of `self.main_graph.stream(...)`: which node produced it
and the relevant payload read from it. -/
inductive GraphUpdate where
  | plannerUpd (plan : List String)
  | executorUpd (log_messages : List LogEntry)
  | synthesizerUpd (messages : List String)
deriving Repr, DecidableEq

/-- An event yielded to the consumer. -/
inductive StreamEvent where
  | planEv (steps : List String)
  | logEv (e : LogEntry)
  | finalResultEv (content : String)
deriving Repr, DecidableEq

/-- A deduplication key: `("plan", tuple(plan))`,
`(type, step, content)`, or `("final_result", content)` — Python tuples
of different shapes, so the three families never collide. -/
inductive EventKey where
  | planKey (steps : List String)
  | logKey (type : String) (step : Option Nat) (content : String)
  | finalKey (content : String)
deriving Repr, DecidableEq

/-- The key under which an event is tracked. -/
def eventKey : StreamEvent → EventKey
  | .planEv steps => .planKey steps
  | .logEv e => .logKey e.type e.step e.content
  | .finalResultEv c => .finalKey c

/-- The `for log_entry in new_logs` loop (`agent.py` lines 129–137):
yield each not-yet-seen log entry and record it in the tracker. -/
def processLogs : List LogEntry → List EventKey →
    List StreamEvent × List EventKey
  | [], tracker => ([], tracker)
  | e :: es, tracker =>
      let k := EventKey.logKey e.type e.step e.content
      if k ∈ tracker then processLogs es tracker
      else
        let r := processLogs es (k :: tracker)
        (.logEv e :: r.1, r.2)

/-- The `for update in self.main_graph.stream(...)` loop (`agent.py`
lines 114–146), threading the tracker and `last_log_count`. -/
def streamLoop : List GraphUpdate → List EventKey → Nat → List StreamEvent
  | [], _, _ => []
  | u :: rest, tracker, lastLogCount =>
      match u with
      | .plannerUpd plan =>
          if plan.isEmpty then streamLoop rest tracker lastLogCount
          else
            let k := EventKey.planKey plan
            if k ∈ tracker then streamLoop rest tracker lastLogCount
            else .planEv plan :: streamLoop rest (k :: tracker) lastLogCount
      | .executorUpd allLogs =>
          let newLogs := allLogs.drop lastLogCount
          let r := processLogs newLogs tracker
          r.1 ++ streamLoop rest r.2 allLogs.length
      | .synthesizerUpd messages =>
          match messages.getLast? with
          | none => streamLoop rest tracker lastLogCount
          | some content =>
              let k := EventKey.finalKey content
              if k ∈ tracker then streamLoop rest tracker lastLogCount
              else .finalResultEv content ::
                streamLoop rest (k :: tracker) lastLogCount

/-- The event-emitting loop of `analyze_streaming`, started with an
empty tracker and `last_log_count = 0` (`agent.py` lines 110–146). -/
def analyze_streaming (updates : List GraphUpdate) : List StreamEvent :=
  streamLoop updates [] 0

/-- Whether a sub-update is a successful tool result (the only update
that sets `step_success = True` in `nodes.py` line 125). -/
def isSuccessUpdate : SubUpdate → Bool
  | .toolMsg r => r.success
  | _ => false

/-- Whether an attempt's stream contains a successful tool result, i.e.
whether the attempt can set `step_success`. -/
def attemptHasSuccess (a : AttemptStream) : Bool :=
  a.updates.any isSuccessUpdate

/-- A worker oracle whose every attempt yields one failing tool result:
used as a concrete instance for the retry-exhaustion scenarios. -/
def failingWorker : Nat → Nat → AttemptStream :=
  fun _ _ => ⟨[.toolMsg ⟨false, none, some "no such column: x"⟩], none⟩

/-! # Theorems -/

/-! ## Helper lemmas about the validator -/

/-- `String.mk` is left inverse to `String.toList`. -/
theorem mk_toList (q : String) : String.mk q.toList = q := rfl

/-- A string with a `[]` character list is the empty string. -/
theorem eq_empty_of_toList_nil (q : String) (h : q.toList = []) : q = "" := by
  have hd : q.data = [] := h
  cases q with
  | mk data =>
      simp only at hd
      subst hd
      rfl

/-- The empty string contains no blocked keyword. -/
theorem containsBlocked_empty : containsBlocked "" = false := by decide

/-- Validation of a query containing a blocked keyword: the security
rejection (`tools.py` lines 135–139). -/
theorem validate_sql_of_blocked (q : String) (h : containsBlocked q = true) :
    validate_sql q = .error securityMsg := by
  have hq : ¬(q = "") := by
    intro he
    rw [he] at h
    exact absurd h (by decide)
  unfold validate_sql
  rw [if_neg hq, if_pos h]

/-- A validation error is returned as a failed `SQLToolOutput` and the
execution block is never reached. -/
theorem execute_sql_of_validate_error (db : String → Except String Rows)
    (q e : String) (h : validate_sql q = .error e) :
    execute_sql db q = ⟨false, none, some e⟩ ∧ dbInvoked q = false := by
  unfold execute_sql dbInvoked
  rw [h]
  exact ⟨rfl, rfl⟩

/-- C1: every query string containing a blocked keyword as a
case-insensitive whole word is rejected by `execute_sql`'s validation
phase with the security-violation error, for any database collaborator,
and the database execution block is never reached. -/
theorem security_filter_rejects_blocked (db : String → Except String Rows)
    (q : String) (h : containsBlocked q = true) :
    execute_sql db q = ⟨false, none, some securityMsg⟩ ∧ dbInvoked q = false :=
  execute_sql_of_validate_error db q securityMsg (validate_sql_of_blocked q h)

/-- C1 witness: `"DROP TABLE users;"` contains the blocked keyword
`drop`, is rejected with the security reason, and is never executed. -/
theorem security_filter_rejects_blocked_witness :
    containsBlocked "DROP TABLE users;" = true ∧
      execute_sql (fun _ => .ok []) "DROP TABLE users;" =
        ⟨false, none, some securityMsg⟩ ∧
      dbInvoked "DROP TABLE users;" = false :=
  ⟨by decide,
   security_filter_rejects_blocked (fun _ => .ok []) "DROP TABLE users;"
     (by decide)⟩

/-- C10: the keyword filter fires on the raw text before any parsing:
the single-statement query `SELECT * FROM t WHERE status = 'delete'`
parses as one statement of type SELECT (it would pass the type check),
yet the whole-word occurrence of `delete` inside its string literal
makes validation reject it with the security reason and the database is
never invoked — a legitimate read-only query rejected by the filter. -/
theorem keyword_filter_prevalidates_raw_text :
    containsBlocked "SELECT * FROM t WHERE status = \x27delete\x27" = true ∧
    sqlparse_parse "SELECT * FROM t WHERE status = \x27delete\x27" =
      ["SELECT * FROM t WHERE status = \x27delete\x27"] ∧
    get_type "SELECT * FROM t WHERE status = \x27delete\x27" = "SELECT" ∧
    (∀ db, execute_sql db "SELECT * FROM t WHERE status = \x27delete\x27" =
      ⟨false, none, some securityMsg⟩) ∧
    dbInvoked "SELECT * FROM t WHERE status = \x27delete\x27" = false := by
  refine ⟨by decide, by decide, by decide, ?_, ?_⟩
  · intro db
    exact (execute_sql_of_validate_error db _ securityMsg
      (validate_sql_of_blocked _ (by decide))).1
  · exact (execute_sql_of_validate_error (fun _ => .ok []) _ securityMsg
      (validate_sql_of_blocked _ (by decide))).2

/-! ## Helper lemmas about whitespace-only queries -/

/-- A keyword never matches at a whitespace head character. -/
theorem startsWithKw_false_of_head (k c : Char) (ks cs : List Char)
    (h : (k == c.toLower) = false) :
    startsWithKw (k :: ks) (c :: cs) = false := by
  simp [startsWithKw, h]

/-- No blocked keyword matches starting at a whitespace character. -/
theorem startsWithKw_ws (kw : List Char) (hkw : kw ∈ keywordLists)
    (c : Char) (cs : List Char) (hc : c.isWhitespace = true) :
    startsWithKw kw (c :: cs) = false := by
  have hc' : c = ' ' ∨ c = '\t' ∨ c = '\r' ∨ c = '\n' := by
    simpa [Char.isWhitespace, or_assoc] using hc
  simp only [keywordLists, List.mem_cons, List.mem_singleton,
    List.not_mem_nil, or_false] at hkw
  rcases hkw with rfl | rfl | rfl | rfl | rfl | rfl | rfl | rfl <;>
    rcases hc' with rfl | rfl | rfl | rfl <;>
      exact startsWithKw_false_of_head _ _ _ _ (by decide)

/-- The keyword scan finds nothing in a whitespace-only suffix. -/
theorem kwSearchAux_ws (kw : List Char) (hkw : kw ∈ keywordLists) :
    ∀ (s : List Char), s.all Char.isWhitespace = true →
      ∀ prev, kwSearchAux kw prev s = false := by
  intro s
  induction s with
  | nil => intro _ _; rfl
  | cons c cs ih =>
      intro h prev
      rw [List.all_cons, Bool.and_eq_true] at h
      simp [kwSearchAux, startsWithKw_ws kw hkw c cs h.1, ih h.2]

/-- A whitespace-only query contains no blocked keyword. -/
theorem containsBlocked_ws (q : String)
    (h : q.toList.all Char.isWhitespace = true) :
    containsBlocked q = false := by
  unfold containsBlocked
  rw [List.any_eq_false]
  intro kw hkw
  have hkws := kwSearchAux_ws kw hkw q.toList h none
  simpa [kwSearch] using hkws

/-- Splitting a semicolon-free character stream yields one statement. -/
theorem splitStmtsAux_no_semi :
    ∀ (s : List Char) (acc : List Char), (∀ c ∈ s, ¬(c = ';')) →
      ¬(acc = [] ∧ s = []) →
      splitStmtsAux acc s = [String.mk (acc.reverse ++ s)] := by
  intro s
  induction s with
  | nil =>
      intro acc _ hne
      have hacc : ¬(acc = []) := fun h => hne ⟨h, rfl⟩
      simp [splitStmtsAux, hacc]
  | cons c cs ih =>
      intro acc hs _
      have hc : ¬(c = ';') := hs c (List.mem_cons_self c cs)
      have hcb : (c == ';') = false := by
        simpa using hc
      rw [splitStmtsAux, hcb]
      simp only [Bool.false_eq_true, if_false]
      rw [ih (c :: acc) (fun d hd => hs d (List.mem_cons_of_mem c hd))
        (fun h => List.noConfusion h.1)]
      simp

/-- Parsing a non-empty semicolon-free query yields exactly that query
as the single statement. -/
theorem sqlparse_parse_no_semi (q : String) (hq : ¬(q = ""))
    (h : ∀ c ∈ q.toList, ¬(c = ';')) : sqlparse_parse q = [q] := by
  unfold sqlparse_parse
  rw [splitStmtsAux_no_semi q.toList [] h
    (fun hc => hq (eq_empty_of_toList_nil q hc.2))]
  simp [mk_toList]

/-- Whitespace characters are not semicolons. -/
theorem ws_ne_semi (c : Char) (h : c.isWhitespace = true) : ¬(c = ';') := by
  intro he
  rw [he] at h
  exact absurd h (by decide)

/-- Skipping whitespace over a whitespace-only stream leaves nothing. -/
theorem skipWs_all (s : List Char) (h : s.all Char.isWhitespace = true) :
    skipWs s = [] := by
  induction s with
  | nil => rfl
  | cons c cs ih =>
      rw [List.all_cons, Bool.and_eq_true] at h
      simp [skipWs, h.1, ih h.2]

/-- A whitespace-only statement has type `UNKNOWN`. -/
theorem get_type_ws (q : String) (h : q.toList.all Char.isWhitespace = true) :
    get_type q = "UNKNOWN" := by
  unfold get_type
  rw [skipWs_all _ h]
  rfl

/-- C7 counterexample: the whitespace-only query `" "` is rejected, but
with the syntax/type-violation reason (detected type `UNKNOWN`), not
with the emptiness reason — the claim's `reason = empty` fails on it. -/
theorem whitespace_gets_type_reason_not_empty :
    validate_sql " " = .error (typeMsg "UNKNOWN") ∧
      ¬(typeMsg "UNKNOWN" = emptyMsg) :=
  ⟨by rfl, by decide⟩

/-- C7 amended: the emptiness rejection fires exactly on the empty
string; a whitespace-only but non-empty query passes the emptiness and
keyword checks and is instead rejected by the statement-type check with
detected type `UNKNOWN`. -/
theorem validator_empty_check (q : String)
    (h : q.toList.all Char.isWhitespace = true) :
    validate_sql q =
      if q = "" then .error emptyMsg else .error (typeMsg "UNKNOWN") := by
  by_cases hq : q = ""
  · rw [if_pos hq, hq]
    rfl
  · rw [if_neg hq]
    unfold validate_sql
    rw [if_neg hq]
    have hcb : containsBlocked q = false := containsBlocked_ws q h
    rw [hcb]
    simp only [Bool.false_eq_true, if_false]
    rw [sqlparse_parse_no_semi q hq
      (fun c hc => ws_ne_semi c (List.all_eq_true.mp h c hc))]
    simp [get_type_ws q h]

/-- C7 witness: the amended statement evaluated at the whitespace-only
query `" "`. -/
theorem validator_empty_check_witness :
    validate_sql " " =
      if (" " : String) = "" then .error emptyMsg
      else .error (typeMsg "UNKNOWN") :=
  validator_empty_check " " (by decide)

end DBAnalyst

namespace DBAnalyst

/-- C2 counterexample: `"SELECT 1; SELECT 2"` is non-empty, contains no
blocked keyword, and parses as two statements — it fails to parse as a
single statement, so the claim says it must be rejected — yet the
validator returns `Ok` because only `parsed[0].get_type()` is checked. -/
theorem multi_statement_passes_validation :
    validate_sql "SELECT 1; SELECT 2" = .ok () ∧
      containsBlocked "SELECT 1; SELECT 2" = false ∧
      sqlparse_parse "SELECT 1; SELECT 2" = ["SELECT 1;", " SELECT 2"] := by
  refine ⟨by rfl, by decide, by rfl⟩

/-- C2 amended: for a non-empty query free of blocked keywords, the
validator inspects only the FIRST parsed statement: it rejects with the
type-violation reason exactly when that statement's type is not SELECT,
and otherwise returns Ok — even when further statements follow. -/
theorem validator_type_check (q st : String) (rest : List String)
    (hq : ¬(q = "")) (hcb : containsBlocked q = false)
    (hp : sqlparse_parse q = st :: rest) :
    (¬(get_type st = "SELECT") →
        validate_sql q = .error (typeMsg (get_type st))) ∧
    (get_type st = "SELECT" → validate_sql q = .ok ()) := by
  unfold validate_sql
  rw [if_neg hq, hcb]
  simp only [Bool.false_eq_true, if_false]
  rw [hp]
  constructor
  · intro hne
    simp only [ne_eq, hne, not_false_eq_true, if_true]
  · intro he
    simp only [ne_eq, he, not_true_eq_false, if_false]

/-- C2 witness: the type check (not the keyword filter) rejects the
keyword-free non-SELECT statement `PRAGMA table_info(unit)`. -/
theorem validator_type_check_witness :
    validate_sql "PRAGMA table_info(unit)" =
      .error (typeMsg (get_type "PRAGMA table_info(unit)")) :=
  (validator_type_check "PRAGMA table_info(unit)" "PRAGMA table_info(unit)" []
    (by decide) (by decide) (by rfl)).1 (by decide)

/-- C6: a validated query whose execution raises is caught and returned
as `Failure` carrying the engine's message (never re-raised: the
embedding is a total function into `SQLToolOutput`), and in every
returned output success and failure are mutually exclusive:
`success = true` exactly when `error` is absent, and exactly when `data`
is present. -/
theorem executor_catches_exceptions (db : String → Except String Rows)
    (q : String) :
    (∀ e, validate_sql q = .ok () → db q = .error e →
        execute_sql db q = ⟨false, none, some e⟩) ∧
    ((execute_sql db q).success = true ↔ (execute_sql db q).error = none) ∧
    ((execute_sql db q).success = true ↔ ¬((execute_sql db q).data = none)) := by
  refine ⟨?_, ?_, ?_⟩
  · intro e hok herr
    unfold execute_sql
    rw [hok, herr]
  · unfold execute_sql
    cases hv : validate_sql q with
    | error e => simp
    | ok u =>
        cases hd : db q with
        | ok rows => simp
        | error e => simp
  · unfold execute_sql
    cases hv : validate_sql q with
    | error e => simp
    | ok u =>
        cases hd : db q with
        | ok rows => simp
        | error e => simp

/-- C6 witness: a database raising `no such table: t` on the validated
query `SELECT * FROM t` yields the failure output with that message. -/
theorem executor_catches_exceptions_witness :
    execute_sql (fun _ => .error "no such table: t") "SELECT * FROM t" =
      ⟨false, none, some "no such table: t"⟩ :=
  (executor_catches_exceptions (fun _ => .error "no such table: t")
    "SELECT * FROM t").1 "no such table: t" (by rfl) (by rfl)

end DBAnalyst

namespace DBAnalyst

/-- C5 counterexample: a model response whose parsed `plan` array has
six steps is returned unchanged — the plan's length is 6, so the claimed
1–5 upper bound fails (the bound is only requested in the prompt text,
never enforced by `planner_node`). -/
theorem planner_no_upper_bound :
    planner_node (.ok ["s1", "s2", "s3", "s4", "s5", "s6"]) "q" =
      ["s1", "s2", "s3", "s4", "s5", "s6"] ∧
    (planner_node (.ok ["s1", "s2", "s3", "s4", "s5", "s6"]) "q").length = 6 :=
  ⟨by rfl, by rfl⟩

/-- C5 amended: the Planner never raises and always returns a plan of
length at least 1: on any pipeline failure, and on an empty parsed plan,
it returns the single-step fallback plan restating the question; a
non-empty parsed plan is returned unchanged, with no enforcement of the
5-step upper bound. -/
theorem planner_total_and_nonempty (response : Except String (List String))
    (uq : String) :
    1 ≤ (planner_node response uq).length ∧
    (∀ e, response = .error e → planner_node response uq = fallback_plan uq) ∧
    (response = .ok [] → planner_node response uq = fallback_plan uq) ∧
    (∀ plan, response = .ok plan → ¬(plan = []) →
        planner_node response uq = plan) := by
  refine ⟨?_, ?_, ?_, ?_⟩
  · cases response with
    | error e => simp [planner_node, fallback_plan]
    | ok plan =>
        cases plan with
        | nil => simp [planner_node, fallback_plan]
        | cons s ss => simp [planner_node]
  · intro e he
    rw [he]
    rfl
  · intro he
    rw [he]
    rfl
  · intro plan hp hne
    rw [hp]
    unfold planner_node
    simp [hne]

/-- C5 witness: the amended statement applied at a failing response and
at the six-step response. -/
theorem planner_total_and_nonempty_witness :
    planner_node (.error "malformed JSON") "How many sessions are there?" =
      fallback_plan "How many sessions are there?" ∧
    planner_node (.ok ["s1", "s2", "s3", "s4", "s5", "s6"]) "q" =
      ["s1", "s2", "s3", "s4", "s5", "s6"] :=
  ⟨(planner_total_and_nonempty (.error "malformed JSON")
      "How many sessions are there?").2.1 "malformed JSON" rfl,
   (planner_total_and_nonempty (.ok ["s1", "s2", "s3", "s4", "s5", "s6"])
      "q").2.2.2 ["s1", "s2", "s3", "s4", "s5", "s6"] rfl (by decide)⟩

/-- C8: with an empty `executed_steps` the Synthesizer returns the fixed
apology string verbatim and performs zero language-model calls; with a
non-empty `executed_steps` it performs exactly one model call. -/
theorem synthesizer_empty_fallback (llm : String → String) (uq : String)
    (executed_steps : List (String × StepRecord)) :
    (executed_steps = [] →
        synthesizer_node llm uq executed_steps = (apologyMsg, 0)) ∧
    (¬(executed_steps = []) →
        (synthesizer_node llm uq executed_steps).2 = 1) := by
  constructor
  · intro h
    rw [h]
    rfl
  · intro h
    unfold synthesizer_node
    rw [if_neg (by simpa [List.isEmpty_iff] using h)]

/-- C8 witness: the apology with zero calls on no steps; one call on a
single executed step. -/
theorem synthesizer_empty_fallback_witness :
    synthesizer_node (fun _ => "answer") "q" [] = (apologyMsg, 0) ∧
    (synthesizer_node (fun _ => "answer") "q"
      [("step_1", ⟨"count sessions", [[("COUNT(*)", .intV 42)]]⟩)]).2 = 1 :=
  ⟨(synthesizer_empty_fallback (fun _ => "answer") "q" []).1 rfl,
   (synthesizer_empty_fallback (fun _ => "answer") "q"
      [("step_1", ⟨"count sessions", [[("COUNT(*)", .intV 42)]]⟩)]).2
     (by decide)⟩

end DBAnalyst

namespace DBAnalyst

/-! ## Helper lemmas about the execution loop -/

/-- A non-success update leaves `step_success` unchanged. -/
theorem processUpdate_stepSuccess (i : Nat) (step : String) (st : ExecState)
    (u : SubUpdate) (h : isSuccessUpdate u = false) :
    (processUpdate i step st u).stepSuccess = st.stepSuccess := by
  cases u with
  | agentCall sql => rfl
  | agentNoCall => rfl
  | toolMsg r =>
      have hr : r.success = false := h
      simp [processUpdate, hr]

/-- Processing a stream with no successful tool result leaves
`step_success` unchanged. -/
theorem foldl_stepSuccess (i : Nat) (step : String) :
    ∀ (us : List SubUpdate) (st : ExecState),
      us.any isSuccessUpdate = false →
      (us.foldl (processUpdate i step) st).stepSuccess = st.stepSuccess := by
  intro us
  induction us with
  | nil => intro st _; rfl
  | cons u us ih =>
      intro st h
      simp only [List.any_cons, Bool.or_eq_false_iff] at h
      rw [List.foldl_cons, ih _ h.2, processUpdate_stepSuccess i step st u h.1]

/-- Every log entry appended while processing step `i`'s updates carries
step index `i`. -/
theorem processUpdate_logs_mem (i : Nat) (step : String) (st : ExecState)
    (u : SubUpdate) (e : LogEntry)
    (he : e ∈ (processUpdate i step st u).logs) :
    e ∈ st.logs ∨ e.step = some i := by
  cases u with
  | agentCall sql =>
      simp only [processUpdate, List.mem_append, List.mem_singleton] at he
      rcases he with h | h
      · exact Or.inl h
      · rw [h]; exact Or.inr rfl
  | agentNoCall => exact Or.inl he
  | toolMsg r =>
      by_cases hr : r.success = true
      · simp only [processUpdate, hr, if_true, List.mem_append,
          List.mem_singleton] at he
        rcases he with h | h
        · exact Or.inl h
        · rw [h]; exact Or.inr rfl
      · simp only [processUpdate, if_neg hr, List.mem_append,
          List.mem_singleton] at he
        rcases he with h | h
        · exact Or.inl h
        · rw [h]; exact Or.inr rfl

/-- Folding a whole update stream only appends logs of step `i`. -/
theorem foldl_logs_mem (i : Nat) (step : String) :
    ∀ (us : List SubUpdate) (st : ExecState) (e : LogEntry),
      e ∈ (us.foldl (processUpdate i step) st).logs →
      e ∈ st.logs ∨ e.step = some i := by
  intro us
  induction us with
  | nil => intro st e he; exact Or.inl he
  | cons u us ih =>
      intro st e he
      rw [List.foldl_cons] at he
      rcases ih _ e he with h | h
      · exact processUpdate_logs_mem i step st u e h
      · exact Or.inr h

/-- When every attempt in the window fails, the retry loop runs all its
iterations and ends without success. -/
theorem attemptLoop_all_fail (worker : Nat → Nat → AttemptStream) (i : Nat)
    (step : String) :
    ∀ (fuel a0 : Nat) (st : ExecState), st.stepSuccess = false →
      (∀ t, a0 ≤ t → t < a0 + fuel → attemptHasSuccess (worker i t) = false) →
      (attemptLoop worker i step fuel a0 st).2 = fuel ∧
        (attemptLoop worker i step fuel a0 st).1.stepSuccess = false := by
  intro fuel
  induction fuel with
  | zero => intro a0 st hs _; exact ⟨rfl, hs⟩
  | succ n ih =>
      intro a0 st hs hw
      have hcur : (worker i a0).updates.any isSuccessUpdate = false :=
        hw a0 (Nat.le_refl a0) (by omega)
      have hfold :
          ((worker i a0).updates.foldl (processUpdate i step) st).stepSuccess =
            false := by
        rw [foldl_stepSuccess i step _ _ hcur, hs]
      simp only [attemptLoop]
      cases hexn : (worker i a0).exn with
      | none =>
          simp only [hexn]
          rw [if_neg (by simp [hfold])]
          have hrec := ih (a0 + 1) _ hfold
            (fun t h1 h2 => hw t (by omega) (by omega))
          exact ⟨by rw [hrec.1], hrec.2⟩
      | some e =>
          simp only [hexn]
          have hrec := ih (a0 + 1)
            { (worker i a0).updates.foldl (processUpdate i step) st with
              logs := ((worker i a0).updates.foldl (processUpdate i step)
                st).logs ++ [⟨"error", some i,
                  "Critical error during step execution: " ++ e⟩],
              errorHistory := ((worker i a0).updates.foldl
                (processUpdate i step) st).errorHistory ++
                  ["Critical error during step execution: " ++ e] }
            hfold (fun t h1 h2 => hw t (by omega) (by omega))
          exact ⟨by rw [hrec.1], hrec.2⟩

/-- The retry loop only appends logs of step `i`. -/
theorem attemptLoop_logs_mem (worker : Nat → Nat → AttemptStream) (i : Nat)
    (step : String) :
    ∀ (fuel a0 : Nat) (st : ExecState) (e : LogEntry),
      e ∈ (attemptLoop worker i step fuel a0 st).1.logs →
      e ∈ st.logs ∨ e.step = some i := by
  intro fuel
  induction fuel with
  | zero => intro a0 st e he; exact Or.inl he
  | succ n ih =>
      intro a0 st e he
      simp only [attemptLoop] at he
      cases hexn : (worker i a0).exn with
      | none =>
          rw [hexn] at he
          by_cases hss :
              ((worker i a0).updates.foldl (processUpdate i step)
                st).stepSuccess = true
          · rw [if_pos hss] at he
            exact foldl_logs_mem i step _ st e he
          · rw [if_neg hss] at he
            rcases ih (a0 + 1) _ e he with h | h
            · exact foldl_logs_mem i step _ st e h
            · exact Or.inr h
      | some ex =>
          rw [hexn] at he
          rcases ih (a0 + 1) _ e he with h | h
          · simp only [List.mem_append, List.mem_singleton] at h
            rcases h with h' | h'
            · exact foldl_logs_mem i step _ st e h'
            · rw [h']; exact Or.inr rfl
          · exact Or.inr h

/-- The retry loop for step `i` only consults the worker at step `i`. -/
theorem attemptLoop_congr (worker worker' : Nat → Nat → AttemptStream)
    (i : Nat) (step : String) (hagree : ∀ t, worker' i t = worker i t) :
    ∀ (fuel a0 : Nat) (st : ExecState),
      attemptLoop worker' i step fuel a0 st =
        attemptLoop worker i step fuel a0 st := by
  intro fuel
  induction fuel with
  | zero => intro a0 st; rfl
  | succ n ih =>
      intro a0 st
      simp only [attemptLoop, hagree a0]
      cases (worker i a0).exn <;> simp [ih]

/-- C3: for a step whose every attempt fails, the retry loop makes
exactly `MAX_RETRIES_PER_STEP` (= 3) attempts — no further attempt
follows — the step ends without success, and the plan loop then emits
the error event naming the step as its last log entry. -/
theorem step_worker_retry_bound (worker : Nat → Nat → AttemptStream)
    (i : Nat) (step : String) (rest : List String) (st : ExecState)
    (hw : ∀ t, t < MAX_RETRIES_PER_STEP →
      attemptHasSuccess (worker i t) = false) :
    (attemptLoop worker i step MAX_RETRIES_PER_STEP 0
      (stepEntry st i step)).2 = MAX_RETRIES_PER_STEP ∧
    (attemptLoop worker i step MAX_RETRIES_PER_STEP 0
      (stepEntry st i step)).1.stepSuccess = false ∧
    (execLoop worker (step :: rest) i st).logs.getLast? =
      some ⟨"error", none, stepFailedMsg i⟩ := by
  have key := attemptLoop_all_fail worker i step MAX_RETRIES_PER_STEP 0
    (stepEntry st i step) rfl (fun t _ hlt => hw t (by simpa using hlt))
  refine ⟨key.1, key.2, ?_⟩
  simp only [execLoop]
  rw [if_neg (by simp [key.2])]
  simp

/-- C3 witness: a worker failing on every attempt for a one-step plan:
three attempts, no success, and the step-failure error event last. -/
theorem step_worker_retry_bound_witness :
    (attemptLoop failingWorker 0 "count sessions" MAX_RETRIES_PER_STEP 0
      (stepEntry initExecState 0 "count sessions")).2 =
        MAX_RETRIES_PER_STEP ∧
    (attemptLoop failingWorker 0 "count sessions" MAX_RETRIES_PER_STEP 0
      (stepEntry initExecState 0 "count sessions")).1.stepSuccess = false ∧
    (execLoop failingWorker ["count sessions"] 0
      initExecState).logs.getLast? =
        some ⟨"error", none, stepFailedMsg 0⟩ :=
  step_worker_retry_bound failingWorker 0 "count sessions" [] initExecState
    (fun _ _ => rfl)

/-- C4: when step `i` exhausts its retries, the plan loop halts: the
result does not depend on the remaining plan steps, nor on what the
worker would answer for any other step, and every emitted log either was
already present, carries no step index, or carries step index `i` — no
event references a later step. -/
theorem orchestrator_short_circuit (worker worker' : Nat → Nat → AttemptStream)
    (step : String) (rest rest' : List String) (i : Nat) (st : ExecState)
    (hw : ∀ t, t < MAX_RETRIES_PER_STEP →
      attemptHasSuccess (worker i t) = false)
    (hagree : ∀ t, worker' i t = worker i t) :
    execLoop worker (step :: rest) i st =
      execLoop worker' (step :: rest') i st ∧
    (∀ e, e ∈ (execLoop worker (step :: rest) i st).logs →
        e ∈ st.logs ∨ e.step = none ∨ e.step = some i) := by
  have key := attemptLoop_all_fail worker i step MAX_RETRIES_PER_STEP 0
    (stepEntry st i step) rfl (fun t _ hlt => hw t (by simpa using hlt))
  constructor
  · simp only [execLoop]
    rw [attemptLoop_congr worker worker' i step hagree]
    rw [if_neg (by simp [key.2])]
    rw [if_neg (by simp [key.2])]
  · intro e he
    simp only [execLoop] at he
    rw [if_neg (by simp [key.2])] at he
    simp only [List.mem_append, List.mem_singleton] at he
    rcases he with h | h
    · rcases attemptLoop_logs_mem worker i step MAX_RETRIES_PER_STEP 0 _ e h
        with h' | h'
      · simp only [stepEntry, List.mem_append, List.mem_singleton] at h'
        rcases h' with h'' | h''
        · exact Or.inl h''
        · rw [h'']; exact Or.inr (Or.inr rfl)
      · exact Or.inr (Or.inr h')
    · rw [h]; exact Or.inr (Or.inl rfl)

/-- C4 witness: for a plan reaching `["b", "c"]` at step index 1 where
step `b` always fails, the result equals the run that never had step
`c`, and no log references an index beyond 1. -/
theorem orchestrator_short_circuit_witness :
    execLoop failingWorker ["b", "c"] 1 initExecState =
      execLoop failingWorker ["b"] 1 initExecState ∧
    (∀ e, e ∈ (execLoop failingWorker ["b", "c"] 1 initExecState).logs →
        e ∈ initExecState.logs ∨ e.step = none ∨ e.step = some 1) :=
  orchestrator_short_circuit failingWorker failingWorker "b" ["c"] [] 1
    initExecState (fun _ _ => rfl) (fun _ => rfl)

end DBAnalyst

namespace DBAnalyst

/-! ## Helper lemmas about stream deduplication -/

/-- Processing new executor logs yields pairwise-distinct keys, none
already tracked, and the new tracker is the old one plus exactly the
yielded keys. -/
theorem processLogs_spec :
    ∀ (es : List LogEntry) (T : List EventKey),
      ((processLogs es T).1.map eventKey).Nodup ∧
      (∀ k ∈ (processLogs es T).1.map eventKey, k ∉ T) ∧
      (∀ k, k ∈ (processLogs es T).2 ↔
        k ∈ T ∨ k ∈ (processLogs es T).1.map eventKey) := by
  intro es
  induction es with
  | nil =>
      intro T
      refine ⟨List.nodup_nil, ?_, ?_⟩
      · intro k hk
        simp [processLogs] at hk
      · intro k
        simp [processLogs]
  | cons e es ih =>
      intro T
      by_cases hk : EventKey.logKey e.type e.step e.content ∈ T
      · have heq : processLogs (e :: es) T = processLogs es T := by
          simp [processLogs, hk]
        rw [heq]
        exact ih T
      · have heq : processLogs (e :: es) T =
            (.logEv e :: (processLogs es
              (EventKey.logKey e.type e.step e.content :: T)).1,
             (processLogs es
              (EventKey.logKey e.type e.step e.content :: T)).2) := by
          simp [processLogs, hk]
        obtain ⟨h1, h2, h3⟩ := ih (EventKey.logKey e.type e.step e.content :: T)
        rw [heq]
        refine ⟨?_, ?_, ?_⟩
        · simp only [List.map_cons, List.nodup_cons]
          exact ⟨fun hm => h2 _ hm (List.mem_cons_self _ _), h1⟩
        · intro k hkm
          simp only [List.map_cons, List.mem_cons] at hkm
          rcases hkm with rfl | hkm
          · exact hk
          · intro hT
            exact h2 k hkm (List.mem_cons_of_mem _ hT)
        · intro k
          rw [h3 k]
          simp only [List.map_cons, List.mem_cons]
          constructor
          · rintro (⟨rfl | hT⟩ | hks)
            · exact Or.inr (Or.inl rfl)
            · exact Or.inl hT
            · exact Or.inr (Or.inr hks)
          · rintro (hT | rfl | hks)
            · exact Or.inl (Or.inr hT)
            · exact Or.inl (Or.inl rfl)
            · exact Or.inr hks

/-- The streaming loop yields pairwise-distinct keys, none of which was
already in the tracker. -/
theorem streamLoop_spec :
    ∀ (us : List GraphUpdate) (T : List EventKey) (c : Nat),
      ((streamLoop us T c).map eventKey).Nodup ∧
      (∀ k ∈ (streamLoop us T c).map eventKey, k ∉ T) := by
  intro us
  induction us with
  | nil =>
      intro T c
      refine ⟨List.nodup_nil, ?_⟩
      intro k hk
      simp [streamLoop] at hk
  | cons u us ih =>
      intro T c
      cases u with
      | plannerUpd plan =>
          by_cases hemp : plan.isEmpty = true
          · have heq : streamLoop (GraphUpdate.plannerUpd plan :: us) T c =
                streamLoop us T c := by
              simp [streamLoop, hemp]
            rw [heq]
            exact ih T c
          · by_cases hk : EventKey.planKey plan ∈ T
            · have heq : streamLoop (GraphUpdate.plannerUpd plan :: us) T c =
                  streamLoop us T c := by
                simp [streamLoop, hemp, hk]
              rw [heq]
              exact ih T c
            · have heq : streamLoop (GraphUpdate.plannerUpd plan :: us) T c =
                  .planEv plan ::
                    streamLoop us (EventKey.planKey plan :: T) c := by
                simp [streamLoop, hemp, hk]
              rw [heq]
              obtain ⟨h1, h2⟩ := ih (EventKey.planKey plan :: T) c
              refine ⟨?_, ?_⟩
              · simp only [List.map_cons, List.nodup_cons]
                exact ⟨fun hm => h2 _ hm (List.mem_cons_self _ _), h1⟩
              · intro k hkm
                simp only [List.map_cons, List.mem_cons] at hkm
                rcases hkm with rfl | hkm
                · exact hk
                · intro hT
                  exact h2 k hkm (List.mem_cons_of_mem _ hT)
      | executorUpd allLogs =>
          have heq : streamLoop (GraphUpdate.executorUpd allLogs :: us) T c =
              (processLogs (allLogs.drop c) T).1 ++
                streamLoop us (processLogs (allLogs.drop c) T).2
                  allLogs.length := by
            simp [streamLoop]
          rw [heq]
          obtain ⟨p1, p2, p3⟩ := processLogs_spec (allLogs.drop c) T
          obtain ⟨s1, s2⟩ := ih (processLogs (allLogs.drop c) T).2
            allLogs.length
          rw [List.map_append]
          refine ⟨?_, ?_⟩
          · rw [List.nodup_append]
            refine ⟨p1, s1, ?_⟩
            intro k hk1 hk2
            exact s2 k hk2 ((p3 k).mpr (Or.inr hk1))
          · intro k hkm
            rcases List.mem_append.mp hkm with h | h
            · exact p2 k h
            · intro hT
              exact s2 k h ((p3 k).mpr (Or.inl hT))
      | synthesizerUpd messages =>
          cases hm : messages.getLast? with
          | none =>
              have heq :
                  streamLoop (GraphUpdate.synthesizerUpd messages :: us) T c =
                    streamLoop us T c := by
                simp [streamLoop, hm]
              rw [heq]
              exact ih T c
          | some content =>
              by_cases hk : EventKey.finalKey content ∈ T
              · have heq :
                    streamLoop (GraphUpdate.synthesizerUpd messages :: us) T c
                      = streamLoop us T c := by
                  simp [streamLoop, hm, hk]
                rw [heq]
                exact ih T c
              · have heq :
                    streamLoop (GraphUpdate.synthesizerUpd messages :: us) T c
                      = .finalResultEv content ::
                          streamLoop us (EventKey.finalKey content :: T) c := by
                  simp [streamLoop, hm, hk]
                rw [heq]
                obtain ⟨h1, h2⟩ := ih (EventKey.finalKey content :: T) c
                refine ⟨?_, ?_⟩
                · simp only [List.map_cons, List.nodup_cons]
                  exact ⟨fun hmem => h2 _ hmem (List.mem_cons_self _ _), h1⟩
                · intro k hkm
                  simp only [List.map_cons, List.mem_cons] at hkm
                  rcases hkm with rfl | hkm
                  · exact hk
                  · intro hT
                    exact h2 k hkm (List.mem_cons_of_mem _ hT)

/-- C9: within one run of `analyze_streaming`, no two emitted events
carry the same deduplication key (kind, step index, and content): every
such combination reaches the consumer at most once, whatever updates —
including replays — the underlying graph produces. -/
theorem analyze_streaming_dedup (updates : List GraphUpdate) :
    ((analyze_streaming updates).map eventKey).Nodup :=
  (streamLoop_spec updates [] 0).1

end DBAnalyst
